import Mathlib

/-!
Shallow embedding of the LucidFrame backend job-lifecycle layer:
the in-memory job registry (src/backend/jobs.py), the video pipeline
orchestrator (src/backend/video_tasks.py), the frame-interpolation stage
(src/backend/pipelines/video.py), and the submission endpoint plus the
reclamation daemon helpers (src/backend/main.py).

Timestamps from datetime.utcnow() are modelled as natural numbers; the
reclamation daemon's wall-clock seconds from time.time() are modelled as
integers.  The registry's Python dict is modelled as an insertion-ordered
association list, with dict insertion (overwrite-in-place for an existing
key, append for a new one) and dict.pop mirrored explicitly.
-/

namespace LucidFrame

/-- Job status strings used by the backend: queued, running, completed,
failed. -/
inductive Status where
  | queued
  | running
  | completed
  | failed
deriving DecidableEq, Repr

/-- Rank of a status along the lifecycle chain
queued to running to a terminal status. -/
def statusRank : Status → Nat
  | .queued => 0
  | .running => 1
  | .completed => 2
  | .failed => 2

/-- A status is terminal when it is completed or failed. -/
def isTerminal : Status → Bool
  | .completed => true
  | .failed => true
  | _ => false

/-- The Job dataclass of src/backend/jobs.py.  The optional
result_path keeps Python's convention that only a truthy (set and
non-empty) value counts as present. -/
structure Job where
  id : String
  kind : String
  status : Status
  message : String
  createdAt : Nat
  updatedAt : Nat
  resultPath : Option String
  keepUntil : Option Nat
deriving DecidableEq, Repr

/-- The registry's internal map, JobStore._jobs: a Python dict from job id
to Job, modelled as an insertion-ordered association list. -/
abbrev Registry := List (String × Job)

/-- Keys of the registry map. -/
def keys (r : Registry) : List String := r.map Prod.fst

/-- Dict lookup: the value at the first entry carrying the key. -/
def lookupJob : Registry → String → Option Job
  | [], _ => none
  | p :: rest, k => if p.1 = k then some p.2 else lookupJob rest k

/-- Python dict assignment d[k] = v: overwrite in place when the key is
present, append at the end otherwise. -/
def dictInsert (r : Registry) (k : String) (v : Job) : Registry :=
  if (lookupJob r k).isSome then
    r.map (fun p => if p.1 = k then (k, v) else p)
  else
    r ++ [(k, v)]

/-- Python dict.pop(k, None): drop the entry carrying the key. -/
def dictPop (r : Registry) (k : String) : Registry :=
  r.filter (fun p => p.1 ≠ k)

/-- The JobStore of src/backend/jobs.py: the map plus the configured TTL
(default_ttl, in the same abstract time unit as timestamps) and capacity
(max_jobs). -/
structure JobStore where
  jobs : Registry
  defaultTtl : Nat
  maxJobs : Nat
deriving DecidableEq, Repr

/-- A record is expired at time now when its keep_until is set and
strictly in the past (jobs.py line 107: job.keep_until and
job.keep_until < now). -/
def isExpired (now : Nat) (j : Job) : Bool :=
  match j.keepUntil with
  | some t => decide (t < now)
  | none => false

/-- JobStore.prune_expired: collect the ids of expired records, pop each,
return the new store together with the collected ids. -/
def pruneExpired (now : Nat) (s : JobStore) : JobStore × List String :=
  let expired := (s.jobs.filter (fun p => isExpired now p.2)).map Prod.fst
  ({ s with jobs := expired.foldl dictPop s.jobs }, expired)

/-- The CapacityExceeded condition: the RuntimeError raised by
JobStore.create when the registry is full after pruning. -/
inductive CreateError where
  | capacityExceeded
deriving DecidableEq, Repr

/-- JobStore.create: prune expired records, fail when the pruned count is
still at max_jobs, otherwise insert a fresh record with status queued and
keep_until = now + TTL.  The fresh uuid4 id is passed in as newId; the
returned store reflects the prune even on the failure path (the prune
mutates self._jobs before the RuntimeError is raised). -/
def newJob (now : Nat) (newId kind message : String) (ttl : Nat) : Job :=
  { id := newId, kind := kind, status := .queued, message := message,
    createdAt := now, updatedAt := now, resultPath := none,
    keepUntil := some (now + ttl) }

/-- JobStore.create, with the record construction split out above. -/
def create (now : Nat) (newId kind message : String) (s : JobStore) :
    JobStore × Except CreateError Job :=
  let s1 := (pruneExpired now s).1
  if s1.jobs.length ≥ s1.maxJobs then
    (s1, .error .capacityExceeded)
  else
    let job := newJob now newId kind message s1.defaultTtl
    ({ s1 with jobs := dictInsert s1.jobs newId job }, .ok job)

/-- The KeyError raised by JobStore.update on an unknown id. -/
inductive UpdateError where
  | unknownId
deriving DecidableEq, Repr

/-- The record mutation performed by JobStore.update: set status, message
and updated_at; store result_path only when truthy (set and non-empty);
reset keep_until to now + TTL on entering completed or failed. -/
def applyUpdate (now ttl : Nat) (status : Status) (message : String)
    (resultPath : Option String) (j : Job) : Job :=
  let j1 := { j with status := status, message := message, updatedAt := now }
  let j2 :=
    match resultPath with
    | some p => if p = "" then j1 else { j1 with resultPath := some p }
    | none => j1
  if isTerminal status then { j2 with keepUntil := some (now + ttl) } else j2

/-- JobStore.update: look the record up (KeyError when absent), mutate it
in place, return it. -/
def update (now : Nat) (jobId : String) (status : Status) (message : String)
    (resultPath : Option String) (s : JobStore) :
    JobStore × Except UpdateError Job :=
  match lookupJob s.jobs jobId with
  | none => (s, .error .unknownId)
  | some j =>
    let j2 := applyUpdate now s.defaultTtl status message resultPath j
    ({ s with jobs := dictInsert s.jobs jobId j2 }, .ok j2)

/-- JobStore.get. -/
def get (s : JobStore) (jobId : String) : Option Job :=
  lookupJob s.jobs jobId

/-- JobStore.running_count: number of records with status running. -/
def runningCount (s : JobStore) : Nat :=
  (s.jobs.filter (fun p => p.2.status = .running)).length

/-! ## Frame interpolation (src/backend/pipelines/video.py, interpolate_frames) -/

/-- A frame as its sequence of pixel values (one channel value per entry;
uint8 values stay below 256, so the average of two of them needs no
saturation). -/
abbrev Frame := List Nat

/-- One blended pixel.  The source computes
cv2.addWeighted(img, 0.5, nxt, 0.5, 0) on uint8 data: a*0.5 + b*0.5 is the
exact binary value (a+b)/2, and OpenCV's saturate_cast rounds it to the
nearest integer, ties to even.  On naturals: the exact half when a+b is
even, otherwise the even one of the two neighbouring integers. -/
def midPixel (a b : Nat) : Nat :=
  let s := a + b
  if s % 2 = 0 then s / 2
  else if (s / 2) % 2 = 0 then s / 2 else s / 2 + 1

/-- The blended mid-frame between two consecutive frames, pixelwise. -/
def midFrame (a b : Frame) : Frame := List.zipWith midPixel a b

/-- interpolate_frames on the ordered frame sequence: with fewer than two
frames the directory is copied unchanged; otherwise each frame is emitted
followed by the blend with its successor (the last frame has none). -/
def interpolateFrames : List Frame → List Frame
  | [] => []
  | [a] => [a]
  | a :: b :: rest => a :: midFrame a b :: interpolateFrames (b :: rest)

/-! ## Orchestrator (src/backend/video_tasks.py) and endpoint
(src/backend/main.py) -/

/-- The staging-directory state under the temp root: the set of job-id
directories currently present, as a list. -/
abbrev FS := List String

/-- _ensure_temp / mkdir(parents=True, exist_ok=True): create the job's
directory if absent. -/
def ensureTemp (fs : FS) (jobId : String) : FS :=
  if jobId ∈ fs then fs else fs ++ [jobId]

/-- cleanup_job_dir: shutil.rmtree on the job's directory, with
FileNotFoundError tolerated as a no-op.  A successful rmtree is modelled;
other rmtree errors are logged and swallowed in the source and are not
modelled. -/
def cleanupJobDir (fs : FS) (jobId : String) : FS :=
  fs.filter (fun d => d ≠ jobId)

/-- A Python exception escaping start_video_job, as the endpoint
distinguishes them: RuntimeError (the registry's capacity error) versus
anything else. -/
inductive PyError where
  | runtimeError (msg : String)
  | otherError (msg : String)
deriving DecidableEq, Repr

/-- How one run of start_video_job ends: a normal return of the job
record, or an exception escaping to the caller. -/
inductive OrchResult where
  | returned (job : Job)
  | raised (e : PyError)
deriving DecidableEq, Repr

/-- Outcome of the process_video stage pipeline: success, a
VideoPipelineError with its message, or any other exception with its
message. -/
inductive ProcessOutcome where
  | ok
  | stageError (msg : String)
  | unexpected (msg : String)
deriving DecidableEq, Repr

/-- The environment of one start_video_job run: the outcomes of its
effectful steps.  ensureTempOk is whether mkdir for the staging directory
succeeds (an OSError there is modelled as false); copyError is the
exception message if persisting the upload fails; processOutcome is the
outcome of process_video. -/
structure PipelineEnv where
  ensureTempOk : Bool
  copyError : Option String
  processOutcome : ProcessOutcome
deriving DecidableEq, Repr

/-- The result path str(output_path) recorded on completion:
the output.mp4 inside the job's staging directory. -/
def outputPathOf (jobId : String) : String := jobId ++ "/output.mp4"

/-- The failure path shared by both except branches of start_video_job:
mark the job failed with the exception message, then remove its staging
directory, then return the record. -/
def failAndCleanup (now : Nat) (jobId msg : String) (s : JobStore) (fs : FS) :
    JobStore × FS × OrchResult :=
  match update now jobId .failed msg none s with
  | (s1, .error _) => (s1, fs, .raised (.otherError "KeyError"))
  | (s1, .ok j) => (s1, cleanupJobDir fs jobId, .returned j)

/-- start_video_job: allocate a record (a capacity RuntimeError
propagates), create the staging directory (an mkdir error propagates,
since _ensure_temp runs before the try block), then inside the guarded
region persist the upload, transition to running, run process_video, and
either complete with result_path or fail and delete the directory.  now
is the abstract time of the run, newId the fresh uuid4 id, durMsg the
elapsed-time message formatted on success. -/
def startVideoJob (now : Nat) (newId : String) (env : PipelineEnv)
    (durMsg : String) (s : JobStore) (fs : FS) : JobStore × FS × OrchResult :=
  match create now newId "video" "queued" s with
  | (s1, .error .capacityExceeded) =>
    (s1, fs, .raised (.runtimeError "job limit reached; try again later"))
  | (s1, .ok _) =>
    if env.ensureTempOk = false then
      (s1, fs, .raised (.otherError "mkdir failed"))
    else
      let fs1 := ensureTemp fs newId
      match env.copyError with
      | some msg => failAndCleanup now newId msg s1 fs1
      | none =>
        match update now newId .running "processing" none s1 with
        | (s2, .error _) => (s2, fs1, .raised (.otherError "KeyError"))
        | (s2, .ok _) =>
          match env.processOutcome with
          | .stageError msg => failAndCleanup now newId msg s2 fs1
          | .unexpected msg => failAndCleanup now newId msg s2 fs1
          | .ok =>
            match update now newId .completed durMsg (some (outputPathOf newId)) s2 with
            | (s3, .error _) => (s3, fs1, .raised (.otherError "KeyError"))
            | (s3, .ok j3) => (s3, fs1, .returned j3)

/-- What the /video/upscale handler hands back to the HTTP layer: the
acceptance JSON, an HTTPException with a status code, or a non-HTTP
exception escaping the handler. -/
inductive EndpointResult where
  | response (jobId : String) (status : Status) (message : String)
  | httpError (code : Nat) (detail : String)
  | escaped (msg : String)
deriving DecidableEq, Repr

/-- The /video/upscale handler (main.py): reject with 429 when
running_count() is at max_concurrent_jobs, before any allocation; call
start_video_job; turn its RuntimeError into a 429; let any other escaping
exception propagate; otherwise answer with the job record's id, status and
message. -/
def videoUpscale (now maxConcurrent : Nat) (newId : String)
    (env : PipelineEnv) (durMsg : String) (s : JobStore) (fs : FS) :
    JobStore × FS × EndpointResult :=
  if runningCount s ≥ maxConcurrent then
    (s, fs, .httpError 429 "too many concurrent jobs; try again later")
  else
    match startVideoJob now newId env durMsg s fs with
    | (s1, fs1, .raised (.runtimeError msg)) => (s1, fs1, .httpError 429 msg)
    | (s1, fs1, .raised (.otherError msg)) => (s1, fs1, .escaped msg)
    | (s1, fs1, .returned j) => (s1, fs1, .response j.id j.status j.message)

/-! ## Reclamation daemon (src/backend/main.py) -/

/-- One entry of the temp root as the orphan scan sees it: its name,
whether it is a directory, and its last-modified time in wall-clock
seconds. -/
structure DirEntry where
  name : String
  isDir : Bool
  mtime : Int
deriving DecidableEq, Repr

/-- _cleanup_orphan_dirs: with cutoff = now - max_age_minutes * 60, every
directory entry whose mtime is strictly below the cutoff is removed (via
cleanup_job_dir) and its name collected; non-directories and younger
directories are skipped.  The registry is not consulted.  Returns the
removed names and the surviving entries. -/
def cleanupOrphanDirs (nowSecs : Int) (maxAgeMinutes : Nat)
    (entries : List DirEntry) : List String × List DirEntry :=
  let cutoff : Int := nowSecs - maxAgeMinutes * 60
  let doomed := fun (e : DirEntry) => e.isDir && decide (e.mtime < cutoff)
  ((entries.filter doomed).map DirEntry.name, entries.filter (fun e => !doomed e))

/-- One cycle of _cleanup_loop: prune expired records and drop their
staging directories, then run the orphan scan over the temp root at
max age job_ttl_minutes.  now is the registry clock, nowSecs the
wall clock of the scan.  Returns the new store, the directory state after
the pruned ids are removed, the pruned ids and the orphan-scan removals. -/
def cleanupCycle (now : Nat) (nowSecs : Int) (ttlMinutes : Nat)
    (s : JobStore) (fs : FS) (entries : List DirEntry) :
    JobStore × FS × List String × List String :=
  let (s1, expired) := pruneExpired now s
  let fs1 := expired.foldl cleanupJobDir fs
  let (removed, _) := cleanupOrphanDirs nowSecs ttlMinutes entries
  (s1, fs1, expired, removed)

/-! ## Association-list toolkit for the registry map -/

@[simp] lemma keys_nil : keys [] = [] := rfl

@[simp] lemma keys_cons (p : String × Job) (r : Registry) :
    keys (p :: r) = p.1 :: keys r := rfl

@[simp] lemma keys_append (r1 r2 : Registry) :
    keys (r1 ++ r2) = keys r1 ++ keys r2 := by
  simp [keys]

lemma lookupJob_eq_none {r : Registry} {k : String} :
    lookupJob r k = none ↔ k ∉ keys r := by
  induction r with
  | nil => simp [lookupJob]
  | cons p rest ih =>
    by_cases h : p.1 = k
    · simp [lookupJob, h]
    · simp only [lookupJob, if_neg h, ih, keys_cons, List.mem_cons]
      constructor
      · intro hk hor
        rcases hor with hor | hor
        · exact h hor.symm
        · exact hk hor
      · intro hk hmem
        exact hk (Or.inr hmem)

lemma mem_of_lookupJob {r : Registry} {k : String} {j : Job}
    (h : lookupJob r k = some j) : (k, j) ∈ r := by
  induction r with
  | nil => simp [lookupJob] at h
  | cons p rest ih =>
    by_cases hp : p.1 = k
    · simp [lookupJob, hp] at h
      apply List.mem_cons.mpr
      left
      cases p
      simp_all
    · simp [lookupJob, hp] at h
      exact List.mem_cons_of_mem _ (ih h)

lemma key_mem_of_mem {r : Registry} {k : String} {j : Job}
    (h : (k, j) ∈ r) : k ∈ keys r := by
  have := List.mem_map_of_mem Prod.fst h
  simpa [keys] using this

lemma lookupJob_of_mem {r : Registry} (hnd : (keys r).Nodup) {k : String}
    {j : Job} (h : (k, j) ∈ r) : lookupJob r k = some j := by
  induction r with
  | nil => simp at h
  | cons p rest ih =>
    rcases List.mem_cons.mp h with heq | hmem
    · simp [lookupJob, ← heq]
    · have hk : k ∈ keys rest := key_mem_of_mem hmem
      have hp : p.1 ≠ k := by
        intro hpk
        exact (List.nodup_cons.mp hnd).1 (hpk ▸ hk)
      simp [lookupJob, hp]
      exact ih (List.nodup_cons.mp hnd).2 hmem

lemma nodup_key_inj {r : Registry} (hnd : (keys r).Nodup) {p q : String × Job}
    (hp : p ∈ r) (hq : q ∈ r) (hk : p.1 = q.1) : p = q := by
  have h1 : lookupJob r p.1 = some p.2 := lookupJob_of_mem hnd (by
    simpa using hp)
  have h2 : lookupJob r q.1 = some q.2 := lookupJob_of_mem hnd (by
    simpa using hq)
  rw [hk, h2] at h1
  have : q.2 = p.2 := by injection h1
  calc p = (p.1, p.2) := rfl
  _ = (q.1, q.2) := by rw [hk, this]
  _ = q := rfl

lemma keys_filter_sublist (q : String × Job → Bool) (r : Registry) :
    (keys (r.filter q)).Sublist (keys r) :=
  (List.filter_sublist r).map Prod.fst

lemma nodup_keys_filter (q : String × Job → Bool) {r : Registry}
    (hnd : (keys r).Nodup) : (keys (r.filter q)).Nodup :=
  (keys_filter_sublist q r).nodup hnd

lemma lookupJob_filter (q : String × Job → Bool) {r : Registry}
    (hnd : (keys r).Nodup) (k : String) :
    lookupJob (r.filter q) k =
      match lookupJob r k with
      | some j => if q (k, j) then some j else none
      | none => none := by
  induction r with
  | nil => simp [lookupJob]
  | cons p rest ih =>
    have hnd2 := (List.nodup_cons.mp hnd).2
    by_cases hp : p.1 = k
    · have hpair : p = (k, p.2) := by
        cases p
        simp_all
      by_cases hq : q p = true
      · rw [List.filter_cons_of_pos hq]
        simp [lookupJob, hp, ← hpair, hq]
      · rw [List.filter_cons_of_neg (by simpa using hq)]
        have hnone : lookupJob (rest.filter q) k = none := by
          rw [lookupJob_eq_none]
          intro hk
          exact (List.nodup_cons.mp hnd).1
            (hp ▸ (keys_filter_sublist q rest).subset hk)
        rw [hnone]
        simp [lookupJob, hp, ← hpair, hq]
    · by_cases hq : q p = true
      · rw [List.filter_cons_of_pos hq]
        simp only [lookupJob, if_neg hp]
        exact ih hnd2
      · rw [List.filter_cons_of_neg (by simpa using hq)]
        simp only [lookupJob, if_neg hp]
        exact ih hnd2

lemma lookupJob_append (r1 r2 : Registry) (k : String) :
    lookupJob (r1 ++ r2) k =
      match lookupJob r1 k with
      | some j => some j
      | none => lookupJob r2 k := by
  induction r1 with
  | nil => simp [lookupJob]
  | cons p rest ih =>
    by_cases hp : p.1 = k
    · simp [lookupJob, hp]
    · simp only [List.cons_append, lookupJob, if_neg hp]
      exact ih

lemma lookupJob_mapReplace (r : Registry) (k : String) (v : Job) (k0 : String) :
    lookupJob (r.map (fun p => if p.1 = k then (k, v) else p)) k0 =
      if k0 = k then (lookupJob r k).map (fun _ => v) else lookupJob r k0 := by
  induction r with
  | nil => simp [lookupJob]
  | cons p rest ih =>
    by_cases hpk : p.1 = k
    · by_cases hk0 : k0 = k
      · simp [lookupJob, hpk, hk0, List.map_cons]
      · have hne : ¬ k = k0 := fun h => hk0 h.symm
        simp [lookupJob, hpk, hk0, List.map_cons, ih, hne]
    · by_cases hp0 : p.1 = k0
      · have hk0 : ¬ k0 = k := fun h => hpk (hp0.trans h)
        simp [lookupJob, hpk, hp0, hk0, List.map_cons]
      · simp [lookupJob, hpk, hp0, List.map_cons, ih]

lemma lookupJob_dictInsert (r : Registry) (k : String) (v : Job) (k0 : String) :
    lookupJob (dictInsert r k v) k0 =
      if k0 = k then some v else lookupJob r k0 := by
  unfold dictInsert
  by_cases hpres : (lookupJob r k).isSome
  · rw [if_pos hpres, lookupJob_mapReplace]
    rcases Option.isSome_iff_exists.mp hpres with ⟨j, hj⟩
    by_cases hk0 : k0 = k
    · simp [hk0, hj]
    · simp [hk0]
  · rw [if_neg hpres, lookupJob_append]
    have hnone : lookupJob r k = none := by
      cases h : lookupJob r k
      · rfl
      · rw [h] at hpres
        simp at hpres
    by_cases hk0 : k0 = k
    · simp [hk0, hnone, lookupJob]
    · have hne : ¬ k = k0 := fun h => hk0 h.symm
      cases h0 : lookupJob r k0
      · simp [lookupJob, hk0, hne]
      · simp [hk0]

lemma keys_mapReplace (r : Registry) (k : String) (v : Job) :
    keys (r.map (fun p => if p.1 = k then (k, v) else p)) = keys r := by
  induction r with
  | nil => rfl
  | cons p rest ih =>
    by_cases hpk : p.1 = k
    · simp [List.map_cons, hpk, ih]
    · simp [List.map_cons, hpk, ih]

lemma nodup_keys_dictInsert {r : Registry} (hnd : (keys r).Nodup)
    (k : String) (v : Job) : (keys (dictInsert r k v)).Nodup := by
  unfold dictInsert
  by_cases hpres : (lookupJob r k).isSome
  · rw [if_pos hpres, keys_mapReplace]
    exact hnd
  · rw [if_neg hpres, keys_append]
    have hk : k ∉ keys r := by
      rw [← lookupJob_eq_none]
      cases h : lookupJob r k
      · rfl
      · rw [h] at hpres
        simp at hpres
    simp [List.nodup_append, hnd, hk]

lemma foldl_dictPop (ks : List String) (r : Registry) :
    List.foldl dictPop r ks = r.filter (fun p => decide (p.1 ∉ ks)) := by
  induction ks generalizing r with
  | nil => simp
  | cons k ks ih =>
    rw [List.foldl_cons, ih]
    unfold dictPop
    rw [List.filter_filter]
    apply List.filter_congr
    intro p _
    by_cases h1 : p.1 = k
    · simp [h1]
    · by_cases h2 : p.1 ∈ ks <;> simp [h1, h2]

lemma isExpired_iff (now : Nat) (j : Job) :
    isExpired now j = true ↔ ∃ t, j.keepUntil = some t ∧ t < now := by
  cases h : j.keepUntil with
  | none => simp [isExpired, h]
  | some t => simp [isExpired, h]

lemma pruneExpired_jobs (now : Nat) (s : JobStore)
    (hnd : (keys s.jobs).Nodup) :
    (pruneExpired now s).1.jobs = s.jobs.filter (fun p => !(isExpired now p.2)) := by
  show List.foldl dictPop s.jobs _ = _
  rw [foldl_dictPop]
  apply List.filter_congr
  intro p hp
  have hiff : p.1 ∈ (s.jobs.filter (fun q => isExpired now q.2)).map Prod.fst ↔
      isExpired now p.2 = true := by
    constructor
    · intro hmem
      rcases List.mem_map.mp hmem with ⟨q, hq, hqk⟩
      have hqmem := List.mem_filter.mp hq
      have : q = p := nodup_key_inj hnd hqmem.1 hp hqk
      exact this ▸ hqmem.2
    · intro hexp
      exact List.mem_map.mpr ⟨p, List.mem_filter.mpr ⟨hp, hexp⟩, rfl⟩
  by_cases hexp : isExpired now p.2 = true
  · simp [hiff, hexp]
  · simp only [Bool.not_eq_true] at hexp
    simp [hiff, hexp]

lemma pruneExpired_removed (now : Nat) (s : JobStore)
    (hnd : (keys s.jobs).Nodup) (id : String) :
    id ∈ (pruneExpired now s).2 ↔
      ∃ j, lookupJob s.jobs id = some j ∧ isExpired now j = true := by
  show id ∈ (s.jobs.filter (fun q => isExpired now q.2)).map Prod.fst ↔ _
  constructor
  · intro hmem
    rcases List.mem_map.mp hmem with ⟨q, hq, hqk⟩
    have hqmem := List.mem_filter.mp hq
    refine ⟨q.2, ?_, hqmem.2⟩
    rw [← hqk]
    exact lookupJob_of_mem hnd (by simpa using hqmem.1)
  · rintro ⟨j, hj, hexp⟩
    exact List.mem_map.mpr
      ⟨(id, j), List.mem_filter.mpr ⟨mem_of_lookupJob hj, hexp⟩, rfl⟩

lemma pruneExpired_ttl (now : Nat) (s : JobStore) :
    (pruneExpired now s).1.defaultTtl = s.defaultTtl := rfl

lemma pruneExpired_max (now : Nat) (s : JobStore) :
    (pruneExpired now s).1.maxJobs = s.maxJobs := rfl

lemma nodup_keys_pruneExpired (now : Nat) {s : JobStore}
    (hnd : (keys s.jobs).Nodup) : (keys (pruneExpired now s).1.jobs).Nodup := by
  rw [pruneExpired_jobs now s hnd]
  exact nodup_keys_filter _ hnd

/-! ## Equation lemmas for the registry operations -/

lemma create_at_capacity {now : Nat} {newId kind msg : String} {s : JobStore}
    (hcap : (pruneExpired now s).1.jobs.length ≥ s.maxJobs) :
    create now newId kind msg s = ((pruneExpired now s).1, .error .capacityExceeded) := by
  simp only [create, pruneExpired_max, pruneExpired_ttl]
  rw [if_pos hcap]

lemma create_under_capacity {now : Nat} {newId kind msg : String} {s : JobStore}
    (hcap : (pruneExpired now s).1.jobs.length < s.maxJobs) :
    create now newId kind msg s =
      ({ (pruneExpired now s).1 with
          jobs := dictInsert (pruneExpired now s).1.jobs newId
            (newJob now newId kind msg s.defaultTtl) },
        .ok (newJob now newId kind msg s.defaultTtl)) := by
  simp only [create, pruneExpired_max, pruneExpired_ttl]
  rw [if_neg (by omega)]

lemma update_found {now : Nat} {jobId : String} {st : Status} {msg : String}
    {rp : Option String} {s : JobStore} {j : Job}
    (h : lookupJob s.jobs jobId = some j) :
    update now jobId st msg rp s =
      ({ s with jobs := dictInsert s.jobs jobId (applyUpdate now s.defaultTtl st msg rp j) },
        .ok (applyUpdate now s.defaultTtl st msg rp j)) := by
  unfold update
  rw [h]

lemma failAndCleanup_eq {now : Nat} {jobId msg : String} {s : JobStore}
    {fs : FS} {j : Job} (h : lookupJob s.jobs jobId = some j) :
    failAndCleanup now jobId msg s fs =
      ({ s with jobs := dictInsert s.jobs jobId (applyUpdate now s.defaultTtl .failed msg none j) },
        cleanupJobDir fs jobId,
        .returned (applyUpdate now s.defaultTtl .failed msg none j)) := by
  unfold failAndCleanup
  rw [update_found h]

lemma applyUpdate_status (now ttl : Nat) (st : Status) (msg : String)
    (rp : Option String) (j : Job) :
    (applyUpdate now ttl st msg rp j).status = st := by
  unfold applyUpdate
  rcases rp with _ | p
  · by_cases h : isTerminal st = true <;> simp [h]
  · by_cases hp : p = "" <;> by_cases h : isTerminal st = true <;> simp [hp, h]

lemma applyUpdate_message (now ttl : Nat) (st : Status) (msg : String)
    (rp : Option String) (j : Job) :
    (applyUpdate now ttl st msg rp j).message = msg := by
  unfold applyUpdate
  rcases rp with _ | p
  · by_cases h : isTerminal st = true <;> simp [h]
  · by_cases hp : p = "" <;> by_cases h : isTerminal st = true <;> simp [hp, h]

lemma applyUpdate_id (now ttl : Nat) (st : Status) (msg : String)
    (rp : Option String) (j : Job) :
    (applyUpdate now ttl st msg rp j).id = j.id := by
  unfold applyUpdate
  rcases rp with _ | p
  · by_cases h : isTerminal st = true <;> simp [h]
  · by_cases hp : p = "" <;> by_cases h : isTerminal st = true <;> simp [hp, h]

lemma applyUpdate_resultPath_none (now ttl : Nat) (st : Status) (msg : String)
    (j : Job) :
    (applyUpdate now ttl st msg none j).resultPath = j.resultPath := by
  unfold applyUpdate
  by_cases h : isTerminal st = true <;> simp [h]

lemma applyUpdate_resultPath_some (now ttl : Nat) (st : Status) (msg : String)
    {p : String} (hp : p ≠ "") (j : Job) :
    (applyUpdate now ttl st msg (some p) j).resultPath = some p := by
  unfold applyUpdate
  by_cases h : isTerminal st = true <;> simp [h, hp]

/-! ## Interpolation lemmas -/

lemma midPixel_rounds (a b : Nat) :
    2 * midPixel a b = a + b ∨ 2 * midPixel a b = a + b + 1 ∨
      2 * midPixel a b + 1 = a + b := by
  unfold midPixel
  by_cases h1 : (a + b) % 2 = 0
  · simp only [h1, if_true]
    omega
  · simp only [h1, if_false]
    by_cases h2 : ((a + b) / 2) % 2 = 0 <;> simp only [h2, if_true, if_false] <;> omega

lemma interpolateFrames_length (fs : List Frame) (h : fs ≠ []) :
    (interpolateFrames fs).length = 2 * fs.length - 1 := by
  induction fs with
  | nil => exact absurd rfl h
  | cons a tl ih =>
    cases tl with
    | nil => simp [interpolateFrames]
    | cons b rest =>
      have hlen := ih (by simp)
      simp only [interpolateFrames, List.length_cons] at hlen ⊢
      omega

lemma interpolateFrames_even (fs : List Frame) (i : Nat) (h : i < fs.length) :
    (interpolateFrames fs)[2 * i]? = fs[i]? := by
  induction fs generalizing i with
  | nil => simp at h
  | cons a tl ih =>
    cases tl with
    | nil =>
      cases i with
      | zero => simp [interpolateFrames]
      | succ i => exact absurd h (by simp)
    | cons b rest =>
      cases i with
      | zero => simp [interpolateFrames]
      | succ i =>
        have h2 : i < (b :: rest).length := by
          simpa using Nat.lt_of_succ_lt_succ h
        have := ih i h2
        simp only [interpolateFrames]
        have harith : 2 * (i + 1) = (2 * i) + 1 + 1 := by omega
        rw [harith]
        simpa using this

lemma interpolateFrames_odd (fs : List Frame) (i : Nat) (a b : Frame)
    (ha : fs[i]? = some a) (hb : fs[i + 1]? = some b) :
    (interpolateFrames fs)[2 * i + 1]? = some (midFrame a b) := by
  induction fs generalizing i with
  | nil => simp at ha
  | cons x tl ih =>
    cases tl with
    | nil =>
      rcases i with _ | i <;> simp at hb
    | cons y rest =>
      cases i with
      | zero =>
        simp at ha hb
        subst ha
        subst hb
        simp [interpolateFrames]
      | succ i =>
        have ha2 : (y :: rest)[i]? = some a := by simpa using ha
        have hb2 : (y :: rest)[i + 1]? = some b := by simpa using hb
        have := ih i ha2 hb2
        simp only [interpolateFrames]
        have harith : 2 * (i + 1) + 1 = (2 * i + 1) + 1 + 1 := by omega
        rw [harith]
        simpa using this

lemma midFrame_pixel (a b : Frame) (k : Nat) (x y : Nat)
    (hx : a[k]? = some x) (hy : b[k]? = some y) :
    (midFrame a b)[k]? = some (midPixel x y) := by
  induction a generalizing b k with
  | nil => simp at hx
  | cons p ptl ih =>
    cases b with
    | nil => simp at hy
    | cons q qtl =>
      cases k with
      | zero =>
        simp at hx hy
        subst hx
        subst hy
        simp [midFrame]
      | succ k =>
        have hx2 : ptl[k]? = some x := by simpa using hx
        have hy2 : qtl[k]? = some y := by simpa using hy
        have := ih qtl k hx2 hy2
        simpa [midFrame] using this

/-! ## Concrete records for witnesses and counterexamples -/

/-- A record expiring at time 1. -/
def jE50 : Job :=
  { id := "e", kind := "video", status := .completed, message := "",
    createdAt := 0, updatedAt := 0, resultPath := some "e/output.mp4",
    keepUntil := some 1 }

/-- A record expiring at time 100. -/
def jK50 : Job :=
  { id := "k", kind := "video", status := .queued, message := "",
    createdAt := 0, updatedAt := 0, resultPath := none,
    keepUntil := some 100 }

/-- A running record. -/
def jR6 : Job :=
  { id := "r", kind := "video", status := .running, message := "processing",
    createdAt := 0, updatedAt := 0, resultPath := none,
    keepUntil := some 1000 }

/-! ## Claim theorems -/

/-- C1: create first prunes expired records; if the record count after
pruning is still at the configured maximum it fails with CapacityExceeded
and adds no record (the store is exactly the pruned store); otherwise it
stores a new record under the fresh id with status queued and keep_until
equal to now plus the TTL, leaving every other record unchanged. -/
theorem C1_create_spec (now : Nat) (newId kind msg : String) (s : JobStore) :
    ((pruneExpired now s).1.jobs.length ≥ s.maxJobs →
      create now newId kind msg s =
        ((pruneExpired now s).1, .error .capacityExceeded)) ∧
    ((pruneExpired now s).1.jobs.length < s.maxJobs →
      lookupJob (pruneExpired now s).1.jobs newId = none →
      ∃ j, (create now newId kind msg s).2 = .ok j ∧
        j.id = newId ∧ j.status = .queued ∧
        j.keepUntil = some (now + s.defaultTtl) ∧
        lookupJob (create now newId kind msg s).1.jobs newId = some j ∧
        (∀ id, id ≠ newId →
          lookupJob (create now newId kind msg s).1.jobs id =
            lookupJob (pruneExpired now s).1.jobs id) ∧
        (create now newId kind msg s).1.jobs.length =
          (pruneExpired now s).1.jobs.length + 1) := by
  constructor
  · exact fun hcap => create_at_capacity hcap
  · intro hcap hfresh
    rw [create_under_capacity hcap]
    refine ⟨newJob now newId kind msg s.defaultTtl, rfl, rfl, rfl, rfl, ?_, ?_, ?_⟩
    · rw [lookupJob_dictInsert]
      simp
    · intro id hid
      rw [lookupJob_dictInsert]
      simp [hid]
    · unfold dictInsert
      rw [if_neg (by simp [hfresh])]
      simp

/-- C1 witness: a store over capacity zero rejects, and an empty store with
capacity one accepts with a queued record carrying keep_until now + TTL. -/
theorem C1_witness :
    create 0 "n" "video" "q" ⟨[], 45, 0⟩ =
      ((pruneExpired 0 ⟨[], 45, 0⟩).1, .error .capacityExceeded) ∧
    ∃ j, (create 7 "n" "video" "q" ⟨[], 45, 1⟩).2 = .ok j ∧
      j.status = .queued ∧ j.keepUntil = some 52 := by
  constructor
  · exact (C1_create_spec 0 "n" "video" "q" ⟨[], 45, 0⟩).1 (by decide)
  · rcases (C1_create_spec 7 "n" "video" "q" ⟨[], 45, 1⟩).2 (by decide) rfl with
      ⟨j, hok, _, hst, hku, _⟩
    exact ⟨j, hok, hst, hku⟩

/-- C2: interpolate on at least two frames yields exactly 2N-1 frames:
the originals unchanged at the even positions and, at each odd position,
the pixelwise blend of the two neighbours; each blended pixel is a
rounding of the exact average of the corresponding pixels (the double of
the blend differs from the pixel sum by at most one).  On fewer than two
frames the frame set is returned unchanged. -/
theorem C2_interpolate_spec (fs : List Frame) :
    (2 ≤ fs.length →
      (interpolateFrames fs).length = 2 * fs.length - 1 ∧
      (∀ i, i < fs.length → (interpolateFrames fs)[2 * i]? = fs[i]?) ∧
      (∀ i a b, fs[i]? = some a → fs[i + 1]? = some b →
        (interpolateFrames fs)[2 * i + 1]? = some (midFrame a b)) ∧
      (∀ a b : Frame, ∀ (k x y : Nat), a[k]? = some x → b[k]? = some y →
        (midFrame a b)[k]? = some (midPixel x y))) ∧
    (fs.length < 2 → interpolateFrames fs = fs) ∧
    (∀ x y : Nat, 2 * midPixel x y = x + y ∨ 2 * midPixel x y = x + y + 1 ∨
      2 * midPixel x y + 1 = x + y) := by
  refine ⟨fun h2 => ⟨?_, ?_, ?_, ?_⟩, ?_, midPixel_rounds⟩
  · refine interpolateFrames_length fs ?_
    intro h
    rw [h] at h2
    simp at h2
  · exact fun i hi => interpolateFrames_even fs i hi
  · exact fun i a b ha hb => interpolateFrames_odd fs i a b ha hb
  · exact fun a b k x y hx hy => midFrame_pixel a b k x y hx hy
  · intro hlt
    match fs with
    | [] => rfl
    | [a] => rfl
    | a :: b :: r => exact absurd hlt (by simp)

/-- C2 witness: a two-frame set yields three frames, the blend of frames
with pixel 0 and pixel 5 sits at position one with pixel 2, and a
single-frame set comes back unchanged. -/
theorem C2_witness :
    (interpolateFrames [[1], [3]]).length = 3 ∧
    (interpolateFrames [[0], [5], [6]])[1]? = some [2] ∧
    interpolateFrames [[9]] = [[9]] := by
  refine ⟨?_, ?_, (C2_interpolate_spec [[9]]).2.1 (by decide)⟩
  · have h := ((C2_interpolate_spec [[1], [3]]).1 (by decide)).1
    simpa using h
  · have h := ((C2_interpolate_spec [[0], [5], [6]]).1 (by decide)).2.2.1 0
      [0] [5] (by decide) (by decide)
    simpa [midFrame, midPixel] using h

/-- C5: prune_expired removes exactly the records whose keep_until is
strictly in the past, leaves every other record unchanged, and the
returned id list consists exactly of the removed records' ids. -/
theorem C5_pruneExpired_spec (now : Nat) (s : JobStore)
    (hnd : (keys s.jobs).Nodup) :
    (∀ id j, lookupJob s.jobs id = some j →
      ((∃ t, j.keepUntil = some t ∧ t < now) →
        lookupJob (pruneExpired now s).1.jobs id = none ∧
        id ∈ (pruneExpired now s).2) ∧
      ((¬ ∃ t, j.keepUntil = some t ∧ t < now) →
        lookupJob (pruneExpired now s).1.jobs id = some j ∧
        id ∉ (pruneExpired now s).2)) ∧
    (∀ id, id ∈ (pruneExpired now s).2 →
      ∃ j, lookupJob s.jobs id = some j ∧
        ∃ t, j.keepUntil = some t ∧ t < now) := by
  constructor
  · intro id j hj
    have hfilters := pruneExpired_jobs now s hnd
    have hlf := lookupJob_filter (fun p => !(isExpired now p.2)) hnd id
    constructor
    · intro hexp
      have hexp2 : isExpired now j = true := (isExpired_iff now j).mpr hexp
      constructor
      · rw [hfilters, hlf, hj]
        simp [hexp2]
      · exact (pruneExpired_removed now s hnd id).mpr ⟨j, hj, hexp2⟩
    · intro hnexp
      have hexp2 : isExpired now j = false := by
        cases h : isExpired now j
        · rfl
        · exact absurd ((isExpired_iff now j).mp h) hnexp
      constructor
      · rw [hfilters, hlf, hj]
        simp [hexp2]
      · intro hmem
        rcases (pruneExpired_removed now s hnd id).mp hmem with ⟨j2, hj2, hexp3⟩
        rw [hj] at hj2
        injection hj2 with hjj
        rw [← hjj, hexp2] at hexp3
        exact Bool.noConfusion hexp3
  · intro id hmem
    rcases (pruneExpired_removed now s hnd id).mp hmem with ⟨j, hj, hexp⟩
    exact ⟨j, hj, (isExpired_iff now j).mp hexp⟩

/-- C5 witness: at time 50, a record expiring at time 1 is removed and
reported while a record expiring at time 100 survives untouched. -/
theorem C5_witness :
    lookupJob (pruneExpired 50 ⟨[("e", jE50), ("k", jK50)], 45, 200⟩).1.jobs "e" = none ∧
    "e" ∈ (pruneExpired 50 ⟨[("e", jE50), ("k", jK50)], 45, 200⟩).2 ∧
    lookupJob (pruneExpired 50 ⟨[("e", jE50), ("k", jK50)], 45, 200⟩).1.jobs "k" = some jK50 ∧
    "k" ∉ (pruneExpired 50 ⟨[("e", jE50), ("k", jK50)], 45, 200⟩).2 := by
  have h := C5_pruneExpired_spec 50 ⟨[("e", jE50), ("k", jK50)], 45, 200⟩ (by decide)
  have he := (h.1 "e" jE50 (by decide)).1 ⟨1, rfl, by omega⟩
  have hk := (h.1 "k" jK50 (by decide)).2 (by
    rintro ⟨t, ht, hlt⟩
    injection ht with ht2
    omega)
  exact ⟨he.1, he.2, hk.1, hk.2⟩

/-- C6: when running_count is at the concurrency limit the submission is
rejected with a retryable 429 before the registry's create runs: the
store (not even pruned) and the filesystem are returned unchanged. -/
theorem C6_admission_denied (now maxConcurrent : Nat) (newId : String)
    (env : PipelineEnv) (durMsg : String) (s : JobStore) (fs : FS)
    (h : runningCount s ≥ maxConcurrent) :
    videoUpscale now maxConcurrent newId env durMsg s fs =
      (s, fs, .httpError 429 "too many concurrent jobs; try again later") := by
  unfold videoUpscale
  rw [if_pos h]

/-- C6 witness: with one running job and a concurrency limit of one, a
submission bounces with 429 and changes nothing. -/
theorem C6_witness :
    videoUpscale 0 1 "n" ⟨true, none, .ok⟩ "" ⟨[("r", jR6)], 45, 200⟩ ["r"] =
      (⟨[("r", jR6)], 45, 200⟩, ["r"],
        .httpError 429 "too many concurrent jobs; try again later") :=
  C6_admission_denied 0 1 "n" ⟨true, none, .ok⟩ "" ⟨[("r", jR6)], 45, 200⟩
    ["r"] (by decide)

/-- A still-running record far from its keep_until, whose staging
directory carries an old last-modified time. -/
def jC4 : Job :=
  { id := "a", kind := "video", status := .running, message := "processing",
    createdAt := 0, updatedAt := 0, resultPath := none,
    keepUntil := some 1000000 }

/-- C4 counterexample: on a daemon cycle at registry time 0 and wall
clock 10000 with a 45-minute threshold, the directory of the record still
tracked by the registry (it survives the prune of the same cycle) is
nevertheless reported removed by the orphan scan: the scan checks only
the age, never the registry, so a tracked directory older than the
threshold is not left intact. -/
theorem C4_counterexample :
    (cleanupCycle 0 10000 45 ⟨[("a", jC4)], 45, 200⟩ ["a"]
        [⟨"a", true, 0⟩]).2.2.2 = ["a"] ∧
    lookupJob (cleanupCycle 0 10000 45 ⟨[("a", jC4)], 45, 200⟩ ["a"]
        [⟨"a", true, 0⟩]).1.jobs "a" = some jC4 := by
  constructor
  · rfl
  · rfl

/-- C4 amended: on each daemon cycle the orphan scan deletes exactly the
directory entries of the temp root whose last-modified time is older than
now minus the max-age threshold, regardless of whether the registry still
tracks them; a directory younger than the threshold, and any
non-directory entry, is left intact. -/
theorem C4_orphan_scan (nowSecs : Int) (maxAgeMinutes : Nat)
    (entries : List DirEntry) :
    (∀ name, name ∈ (cleanupOrphanDirs nowSecs maxAgeMinutes entries).1 ↔
      ∃ e, e ∈ entries ∧ e.name = name ∧ e.isDir = true ∧
        e.mtime < nowSecs - maxAgeMinutes * 60) ∧
    (∀ e, e ∈ entries →
      (e.isDir = true → ¬ e.mtime < nowSecs - maxAgeMinutes * 60 →
        e ∈ (cleanupOrphanDirs nowSecs maxAgeMinutes entries).2) ∧
      (e.isDir = false →
        e ∈ (cleanupOrphanDirs nowSecs maxAgeMinutes entries).2)) := by
  constructor
  · intro name
    unfold cleanupOrphanDirs
    simp only [List.mem_map, List.mem_filter, Bool.and_eq_true, decide_eq_true_eq]
    constructor
    · rintro ⟨e, ⟨he, hd, hm⟩, hn⟩
      exact ⟨e, he, hn, hd, hm⟩
    · rintro ⟨e, he, hn, hd, hm⟩
      exact ⟨e, ⟨he, hd, hm⟩, hn⟩
  · intro e he
    constructor
    · intro hd hm
      unfold cleanupOrphanDirs
      simp only [List.mem_filter]
      refine ⟨he, ?_⟩
      simp [hd, hm]
    · intro hd
      unfold cleanupOrphanDirs
      simp only [List.mem_filter]
      refine ⟨he, ?_⟩
      simp [hd]

/-- C4 amended witness: at wall clock 100 with a one-minute threshold, a
directory last modified at time 0 is removed while one last modified at
time 50 survives. -/
theorem C4_witness :
    "x" ∈ (cleanupOrphanDirs 100 1 [⟨"x", true, 0⟩, ⟨"y", true, 50⟩]).1 ∧
    (⟨"y", true, 50⟩ : DirEntry) ∈
      (cleanupOrphanDirs 100 1 [⟨"x", true, 0⟩, ⟨"y", true, 50⟩]).2 := by
  have h := C4_orphan_scan 100 1 [⟨"x", true, 0⟩, ⟨"y", true, 50⟩]
  constructor
  · exact (h.1 "x").mpr ⟨⟨"x", true, 0⟩, by simp, rfl, rfl, by decide⟩
  · exact ((h.2 ⟨"y", true, 50⟩ (by simp)).1 rfl (by decide))

/-! ## The program's registry mutations as a step relation -/

lemma mem_dictInsert {r : Registry} {k : String} {v : Job} {p : String × Job}
    (h : p ∈ dictInsert r k v) : p = (k, v) ∨ p ∈ r := by
  unfold dictInsert at h
  by_cases hpres : (lookupJob r k).isSome
  · rw [if_pos hpres] at h
    rcases List.mem_map.mp h with ⟨q, hq, hqe⟩
    by_cases hqk : q.1 = k
    · left
      rw [← hqe]
      simp [hqk]
    · right
      rw [← hqe]
      simpa [hqk] using hq
  · rw [if_neg hpres] at h
    rcases List.mem_append.mp h with h | h
    · right
      exact h
    · left
      simpa using h

lemma mem_pruneExpired {now : Nat} {s : JobStore} {p : String × Job}
    (h : p ∈ (pruneExpired now s).1.jobs) : p ∈ s.jobs := by
  rw [show (pruneExpired now s).1.jobs = List.foldl dictPop s.jobs
      ((s.jobs.filter (fun q => isExpired now q.2)).map Prod.fst) from rfl,
    foldl_dictPop] at h
  exact (List.mem_filter.mp h).1

lemma create_at_capacity_jobs {now : Nat} {newId kind msg : String}
    {s : JobStore} (hcap : (pruneExpired now s).1.jobs.length ≥ s.maxJobs) :
    (create now newId kind msg s).1.jobs = (pruneExpired now s).1.jobs := by
  rw [create_at_capacity hcap]

lemma create_under_capacity_jobs {now : Nat} {newId kind msg : String}
    {s : JobStore} (hcap : (pruneExpired now s).1.jobs.length < s.maxJobs) :
    (create now newId kind msg s).1.jobs =
      dictInsert (pruneExpired now s).1.jobs newId
        (newJob now newId kind msg s.defaultTtl) := by
  rw [create_under_capacity hcap]

lemma update_found_jobs {now : Nat} {jobId : String} {st : Status}
    {msg : String} {rp : Option String} {s : JobStore} {j : Job}
    (h : lookupJob s.jobs jobId = some j) :
    (update now jobId st msg rp s).1.jobs =
      dictInsert s.jobs jobId (applyUpdate now s.defaultTtl st msg rp j) := by
  rw [update_found h]

/-- The registry mutations the program performs, as a transition relation
on stores: the registry's create on a submission (with a fresh uuid4 id;
this covers the capacity-failure branch too, whose only effect is the
prune), the orchestrator's three updates — to running on the queued
record it just created, to completed with a non-empty result path on the
running record, to failed (from queued when persisting the upload fails,
from running when a stage fails) — and the daemon's prune_expired.  Every
assignment to JobStore._jobs in the source is an instance of one of
these. -/
inductive ProgStep : JobStore → JobStore → Prop where
  | createStep (now : Nat) (newId kind msg : String) (s : JobStore)
      (hfresh : lookupJob s.jobs newId = none) :
      ProgStep s (create now newId kind msg s).1
  | runStep (now : Nat) (id : String) (s : JobStore) (j : Job)
      (hj : lookupJob s.jobs id = some j) (hq : j.status = .queued) :
      ProgStep s (update now id .running "processing" none s).1
  | completeStep (now : Nat) (id msg p : String) (s : JobStore) (j : Job)
      (hj : lookupJob s.jobs id = some j) (hr : j.status = .running)
      (hp : p ≠ "") :
      ProgStep s (update now id .completed msg (some p) s).1
  | failStep (now : Nat) (id msg : String) (s : JobStore) (j : Job)
      (hj : lookupJob s.jobs id = some j)
      (hq : j.status = .queued ∨ j.status = .running) :
      ProgStep s (update now id .failed msg none s).1
  | pruneStep (now : Nat) (s : JobStore) :
      ProgStep s (pruneExpired now s).1

/-- Python truthiness of an optional string: set and non-empty. -/
def pathTruthy : Option String → Bool
  | some p => decide (p ≠ "")
  | none => false

/-- The C7 invariant: every record's result_path is truthy exactly when
its status is completed. -/
def ResultPathInv (s : JobStore) : Prop :=
  ∀ p, p ∈ s.jobs →
    (pathTruthy (Prod.snd p).resultPath = true ↔ (Prod.snd p).status = .completed)

lemma resultPathInv_step {s s2 : JobStore} (hstep : ProgStep s s2)
    (hinv : ResultPathInv s) : ResultPathInv s2 := by
  cases hstep with
  | createStep now newId kind msg _ hfresh =>
    intro p hp
    by_cases hcap : (pruneExpired now s).1.jobs.length ≥ s.maxJobs
    · rw [create_at_capacity_jobs hcap] at hp
      exact hinv p (mem_pruneExpired hp)
    · rw [create_under_capacity_jobs (by omega)] at hp
      rcases mem_dictInsert hp with he | hp2
      · rw [he]
        simp [newJob, pathTruthy]
      · exact hinv p (mem_pruneExpired hp2)
  | runStep now id _ j hj hq =>
    intro p hp
    rw [update_found_jobs hj] at hp
    rcases mem_dictInsert hp with he | hp2
    · rw [he]
      have hj2 := hinv (id, j) (mem_of_lookupJob hj)
      simp only at hj2
      have hfalse : pathTruthy j.resultPath = false := by
        cases h : pathTruthy j.resultPath
        · rfl
        · rw [hq] at hj2
          exact absurd (hj2.mp h) (by simp)
      simp only [applyUpdate_status, applyUpdate_resultPath_none, hfalse]
      simp
    · exact hinv p hp2
  | completeStep now id msg pth _ j hj hr hp2 =>
    intro p hp
    rw [update_found_jobs hj] at hp
    rcases mem_dictInsert hp with he | hp3
    · rw [he]
      simp only
      rw [applyUpdate_resultPath_some now s.defaultTtl .completed msg hp2 j,
        applyUpdate_status]
      simp [pathTruthy, hp2]
    · exact hinv p hp3
  | failStep now id msg _ j hj hq =>
    intro p hp
    rw [update_found_jobs hj] at hp
    rcases mem_dictInsert hp with he | hp2
    · rw [he]
      have hj2 := hinv (id, j) (mem_of_lookupJob hj)
      simp only at hj2
      have hfalse : pathTruthy j.resultPath = false := by
        cases h : pathTruthy j.resultPath
        · rfl
        · rcases hq with hq | hq <;> rw [hq] at hj2 <;>
            exact absurd (hj2.mp h) (by simp)
      simp only [applyUpdate_status, applyUpdate_resultPath_none, hfalse]
      simp
    · exact hinv p hp2
  | pruneStep now _ =>
    intro p hp
    exact hinv p (mem_pruneExpired hp)

/-- C7: in every registry state reachable from the empty registry through
the program's operations, a record's result_path is truthy (set and
non-empty) exactly when its status is completed. -/
theorem C7_resultPath_iff_completed (ttl mx : Nat) (s : JobStore)
    (hreach : Relation.ReflTransGen ProgStep ⟨[], ttl, mx⟩ s) :
    ∀ p, p ∈ s.jobs →
      (pathTruthy (Prod.snd p).resultPath = true ↔
        (Prod.snd p).status = .completed) := by
  induction hreach with
  | refl => intro p hp; exact absurd hp (by simp)
  | tail hsteps hstep ih => exact resultPathInv_step hstep ih

/-- C7 witness: the record allocated by one create step out of the empty
registry satisfies the equivalence. -/
theorem C7_witness :
    pathTruthy (newJob 0 "a" "video" "q" 45).resultPath = true ↔
      (newJob 0 "a" "video" "q" 45).status = .completed :=
  C7_resultPath_iff_completed 45 200 _
    (Relation.ReflTransGen.single (ProgStep.createStep 0 "a" "video" "q" _ rfl))
    ("a", newJob 0 "a" "video" "q" 45) (by decide)

/-- C8: across every operation the program performs on the registry, a
record present before and after the operation never moves backwards along
queued, then running, then a terminal status, and a record already in a
terminal status (completed or failed) keeps that status unchanged — so a
job's status sequence is monotonic and ends in at most one of completed
or failed.  Keys are distinct as in a Python dict. -/
theorem C8_status_monotonic {s s2 : JobStore} (hnd : (keys s.jobs).Nodup)
    (hstep : ProgStep s s2) (id : String) (j j2 : Job)
    (h1 : lookupJob s.jobs id = some j)
    (h2 : lookupJob s2.jobs id = some j2) :
    statusRank j.status ≤ statusRank j2.status ∧
      (isTerminal j.status = true → j2.status = j.status) := by
  cases hstep with
  | pruneStep now _ =>
    rw [show (pruneExpired now s).1.jobs =
        s.jobs.filter (fun p => !(isExpired now p.2)) from
        pruneExpired_jobs now s hnd,
      lookupJob_filter _ hnd id, h1] at h2
    by_cases hexp : isExpired now j = true
    · simp [hexp] at h2
    · simp [hexp] at h2
      rw [← h2]
      exact ⟨le_refl _, fun _ => rfl⟩
  | createStep now newId kind msg _ hfresh =>
    by_cases hcap : (pruneExpired now s).1.jobs.length ≥ s.maxJobs
    · rw [create_at_capacity_jobs hcap,
        show (pruneExpired now s).1.jobs =
          s.jobs.filter (fun p => !(isExpired now p.2)) from
          pruneExpired_jobs now s hnd,
        lookupJob_filter _ hnd id, h1] at h2
      by_cases hexp : isExpired now j = true
      · simp [hexp] at h2
      · simp [hexp] at h2
        rw [← h2]
        exact ⟨le_refl _, fun _ => rfl⟩
    · rw [create_under_capacity_jobs (by omega), lookupJob_dictInsert] at h2
      by_cases hid : id = newId
      · rw [← hid, h1] at hfresh
        exact Option.noConfusion hfresh
      · rw [if_neg hid,
          show (pruneExpired now s).1.jobs =
            s.jobs.filter (fun p => !(isExpired now p.2)) from
            pruneExpired_jobs now s hnd,
          lookupJob_filter _ hnd id, h1] at h2
        by_cases hexp : isExpired now j = true
        · simp [hexp] at h2
        · simp [hexp] at h2
          rw [← h2]
          exact ⟨le_refl _, fun _ => rfl⟩
  | runStep now id0 _ j0 hj hq =>
    rw [update_found_jobs hj, lookupJob_dictInsert] at h2
    by_cases hid : id = id0
    · rw [if_pos hid] at h2
      injection h2 with hjj
      rw [hid, hj] at h1
      injection h1 with hjj1
      rw [← hjj, applyUpdate_status, ← hjj1, hq]
      refine ⟨by simp [statusRank], fun hterm => ?_⟩
      exact absurd hterm (by simp [isTerminal])
    · rw [if_neg hid] at h2
      rw [h1] at h2
      injection h2 with hjj
      rw [hjj]
      exact ⟨le_refl _, fun _ => rfl⟩
  | completeStep now id0 msg pth _ j0 hj hr hp =>
    rw [update_found_jobs hj, lookupJob_dictInsert] at h2
    by_cases hid : id = id0
    · rw [if_pos hid] at h2
      injection h2 with hjj
      rw [hid, hj] at h1
      injection h1 with hjj1
      rw [← hjj, applyUpdate_status, ← hjj1, hr]
      exact ⟨by simp [statusRank], fun hterm => absurd hterm (by simp [isTerminal])⟩
    · rw [if_neg hid] at h2
      rw [h1] at h2
      injection h2 with hjj
      rw [hjj]
      exact ⟨le_refl _, fun _ => rfl⟩
  | failStep now id0 msg _ j0 hj hq =>
    rw [update_found_jobs hj, lookupJob_dictInsert] at h2
    by_cases hid : id = id0
    · rw [if_pos hid] at h2
      injection h2 with hjj
      rw [hid, hj] at h1
      injection h1 with hjj1
      rw [← hjj, applyUpdate_status, ← hjj1]
      rcases hq with hq | hq <;>
        exact ⟨by rw [hq]; simp [statusRank], fun hterm => absurd hterm
          (by rw [hq]; simp [isTerminal])⟩
    · rw [if_neg hid] at h2
      rw [h1] at h2
      injection h2 with hjj
      rw [hjj]
      exact ⟨le_refl _, fun _ => rfl⟩

/-- C8 witness: a completed record surviving a prune keeps its rank and
terminal status unchanged. -/
theorem C8_witness :
    statusRank jE50.status ≤ statusRank jE50.status ∧
      (isTerminal jE50.status = true → jE50.status = jE50.status) :=
  C8_status_monotonic (s := ⟨[("e", jE50)], 45, 200⟩) (by decide)
    (ProgStep.pruneStep 0 _) "e" jE50 jE50 (by decide) (by decide)

/-! ## Reduction lemmas for the orchestrator paths -/

lemma create_fst_ttl (now : Nat) (newId kind msg : String) (s : JobStore) :
    (create now newId kind msg s).1.defaultTtl = s.defaultTtl := by
  by_cases h : (pruneExpired now s).1.jobs.length ≥ s.maxJobs
  · rw [create_at_capacity h]
    rfl
  · rw [create_under_capacity (by omega)]
    rfl

lemma not_mem_cleanupJobDir (fs : FS) (a : String) :
    a ∉ cleanupJobDir fs a := by
  simp [cleanupJobDir]

lemma startVideoJob_copy_fail {now : Nat} {newId durMsg failMsg : String}
    {env : PipelineEnv} {s s1 : JobStore} {j : Job} {fs : FS}
    (hcr : create now newId "video" "queued" s = (s1, .ok j))
    (henv : env.ensureTempOk = true)
    (hcopy : env.copyError = some failMsg) :
    startVideoJob now newId env durMsg s fs =
      failAndCleanup now newId failMsg s1 (ensureTemp fs newId) := by
  unfold startVideoJob
  rw [hcr]
  simp [henv, hcopy]

lemma startVideoJob_proc_fail {now : Nat} {newId durMsg failMsg : String}
    {env : PipelineEnv} {s s1 s2 : JobStore} {j j2 : Job} {fs : FS}
    (hcr : create now newId "video" "queued" s = (s1, .ok j))
    (henv : env.ensureTempOk = true)
    (hcopy : env.copyError = none)
    (hupd : update now newId .running "processing" none s1 = (s2, .ok j2))
    (hproc : env.processOutcome = .stageError failMsg ∨
      env.processOutcome = .unexpected failMsg) :
    startVideoJob now newId env durMsg s fs =
      failAndCleanup now newId failMsg s2 (ensureTemp fs newId) := by
  unfold startVideoJob
  rw [hcr]
  simp only [henv, hcopy]
  rw [hupd]
  rcases hproc with h | h <;> simp [h]

lemma startVideoJob_success {now : Nat} {newId durMsg : String}
    {env : PipelineEnv} {s s1 s2 s3 : JobStore} {j j2 j3 : Job} {fs : FS}
    (hcr : create now newId "video" "queued" s = (s1, .ok j))
    (henv : env.ensureTempOk = true)
    (hcopy : env.copyError = none)
    (hupd : update now newId .running "processing" none s1 = (s2, .ok j2))
    (hproc : env.processOutcome = .ok)
    (hupd2 : update now newId .completed durMsg (some (outputPathOf newId)) s2 =
      (s3, .ok j3)) :
    startVideoJob now newId env durMsg s fs =
      (s3, ensureTemp fs newId, .returned j3) := by
  unfold startVideoJob
  rw [hcr]
  simp only [henv, hcopy]
  rw [hupd]
  simp only [hproc]
  rw [hupd2]
  simp

/-- The failure result of one guarded-region failure path: the record the
orchestrator allocated, stamped failed with the error message, with the
staging directory removed and the record returned normally. -/
lemma startVideoJob_guarded_failure (now : Nat)
    (newId durMsg failMsg : String) (env : PipelineEnv) (s : JobStore)
    (fs : FS) (hcap : (pruneExpired now s).1.jobs.length < s.maxJobs)
    (henv : env.ensureTempOk = true)
    (hfail : env.copyError = some failMsg ∨
      (env.copyError = none ∧ env.processOutcome = .stageError failMsg) ∨
      (env.copyError = none ∧ env.processOutcome = .unexpected failMsg)) :
    ∃ jF, (startVideoJob now newId env durMsg s fs).2.1 =
        cleanupJobDir (ensureTemp fs newId) newId ∧
      (startVideoJob now newId env durMsg s fs).2.2 = .returned jF ∧
      jF.status = .failed ∧ jF.message = failMsg ∧ jF.id = newId ∧
      lookupJob (startVideoJob now newId env durMsg s fs).1.jobs newId =
        some jF := by
  have hcr := @create_under_capacity now newId "video" "queued" s hcap
  have hsnd : (create now newId "video" "queued" s).2 =
      .ok (newJob now newId "video" "queued" s.defaultTtl) := by
    rw [hcr]
  have hcr2 : create now newId "video" "queued" s =
      ((create now newId "video" "queued" s).1,
        .ok (newJob now newId "video" "queued" s.defaultTtl)) := by
    rw [← hsnd]
  have hlq : lookupJob (create now newId "video" "queued" s).1.jobs newId =
      some (newJob now newId "video" "queued" s.defaultTtl) := by
    rw [create_under_capacity_jobs hcap, lookupJob_dictInsert, if_pos rfl]
  rcases hfail with hcopy | ⟨hcopy, hproc⟩ | ⟨hcopy, hproc⟩
  · have hsvj := @startVideoJob_copy_fail now newId durMsg failMsg env s _ _
      fs hcr2 henv hcopy
    have hfc := @failAndCleanup_eq now newId failMsg
      (create now newId "video" "queued" s).1 (ensureTemp fs newId) _ hlq
    rw [create_fst_ttl] at hfc
    refine ⟨applyUpdate now s.defaultTtl .failed failMsg none
      (newJob now newId "video" "queued" s.defaultTtl), ?_, ?_,
      applyUpdate_status now s.defaultTtl .failed failMsg none _, ?_, ?_, ?_⟩
    · rw [hsvj, hfc]
    · rw [hsvj, hfc]
    · exact applyUpdate_message now s.defaultTtl .failed failMsg none _
    · rw [applyUpdate_id]
      rfl
    · rw [hsvj, hfc]
      show lookupJob (dictInsert _ newId _) newId = _
      rw [lookupJob_dictInsert, if_pos rfl]
  all_goals {
    have hupd := @update_found now newId Status.running "processing" none
      (create now newId "video" "queued" s).1 _ hlq
    rw [create_fst_ttl] at hupd
    have husnd : (update now newId .running "processing" none
        (create now newId "video" "queued" s).1).2 =
        .ok (applyUpdate now s.defaultTtl .running "processing" none
          (newJob now newId "video" "queued" s.defaultTtl)) := by
      rw [hupd]
    have hupd2 : update now newId .running "processing" none
        (create now newId "video" "queued" s).1 =
        ((update now newId .running "processing" none
          (create now newId "video" "queued" s).1).1,
          .ok (applyUpdate now s.defaultTtl .running "processing" none
            (newJob now newId "video" "queued" s.defaultTtl))) := by
      rw [← husnd]
    have hjobs2 : (update now newId .running "processing" none
        (create now newId "video" "queued" s).1).1.jobs =
        dictInsert (create now newId "video" "queued" s).1.jobs newId
          (applyUpdate now s.defaultTtl .running "processing" none
            (newJob now newId "video" "queued" s.defaultTtl)) := by
      rw [hupd]
    have hlr : lookupJob (update now newId .running "processing" none
        (create now newId "video" "queued" s).1).1.jobs newId =
        some (applyUpdate now s.defaultTtl .running "processing" none
          (newJob now newId "video" "queued" s.defaultTtl)) := by
      rw [hjobs2, lookupJob_dictInsert, if_pos rfl]
    have httl2 : (update now newId .running "processing" none
        (create now newId "video" "queued" s).1).1.defaultTtl =
        s.defaultTtl := by
      rw [hupd]
    have hsvj := @startVideoJob_proc_fail now newId durMsg failMsg env s _ _
      _ _ fs hcr2 henv hcopy hupd2 (by rw [hproc]; tauto)
    have hfc := @failAndCleanup_eq now newId failMsg
      (update now newId .running "processing" none
        (create now newId "video" "queued" s).1).1
      (ensureTemp fs newId) _ hlr
    rw [httl2] at hfc
    refine ⟨applyUpdate now s.defaultTtl .failed failMsg none
      (applyUpdate now s.defaultTtl .running "processing" none
        (newJob now newId "video" "queued" s.defaultTtl)), ?_, ?_,
      applyUpdate_status now s.defaultTtl .failed failMsg none _, ?_, ?_, ?_⟩
    · rw [hsvj, hfc]
    · rw [hsvj, hfc]
    · exact applyUpdate_message now s.defaultTtl .failed failMsg none _
    · rw [applyUpdate_id, applyUpdate_id]
      rfl
    · rw [hsvj, hfc]
      show lookupJob (dictInsert _ newId _) newId = _
      rw [lookupJob_dictInsert, if_pos rfl]
  }

/-- C3 counterexample: an unexpected error occurring after the job record
is allocated — an mkdir failure while creating the staging directory,
which the source performs before entering its try block — escapes the
orchestrator to the caller, and the allocated record is left queued, not
failed; so the claim fails as stated. -/
theorem C3_counterexample :
    (startVideoJob 0 "j1" ⟨false, none, .ok⟩ "" ⟨[], 45, 200⟩ []).2.2 =
      .raised (.otherError "mkdir failed") ∧
    lookupJob (startVideoJob 0 "j1" ⟨false, none, .ok⟩ ""
        ⟨[], 45, 200⟩ []).1.jobs "j1" =
      some (newJob 0 "j1" "video" "queued" 45) ∧
    (newJob 0 "j1" "video" "queued" 45).status = .queued :=
  ⟨rfl, rfl, rfl⟩

/-- C3 amended: any stage failure or unexpected error raised inside the
orchestrator's guarded region — from persisting the upload onward —
transitions the job to failed with the error's message, deletes the job's
staging directory immediately afterwards, and lets no exception escape
(the record is returned normally).  An error while creating the staging
directory itself, which the source runs before the guarded region,
instead escapes with the record left queued. -/
theorem C3_failure_cleanup (now : Nat) (newId durMsg failMsg : String)
    (env : PipelineEnv) (s : JobStore) (fs : FS)
    (hcap : (pruneExpired now s).1.jobs.length < s.maxJobs)
    (henv : env.ensureTempOk = true)
    (hfail : env.copyError = some failMsg ∨
      (env.copyError = none ∧ env.processOutcome = .stageError failMsg) ∨
      (env.copyError = none ∧ env.processOutcome = .unexpected failMsg)) :
    ∃ jF, (startVideoJob now newId env durMsg s fs).2.2 = .returned jF ∧
      jF.status = .failed ∧ jF.message = failMsg ∧
      newId ∉ (startVideoJob now newId env durMsg s fs).2.1 ∧
      lookupJob (startVideoJob now newId env durMsg s fs).1.jobs newId =
        some jF := by
  rcases startVideoJob_guarded_failure now newId durMsg failMsg env s fs
    hcap henv hfail with ⟨jF, hfs, hres, hst, hmsg, hid, hlook⟩
  refine ⟨jF, hres, hst, hmsg, ?_, hlook⟩
  rw [hfs]
  exact not_mem_cleanupJobDir _ _

/-- C3 amended witness: a concrete stage failure on an empty registry is
recorded as failed with its message, the staging directory is gone, and
the record is returned rather than an exception raised. -/
theorem C3_witness :
    ∃ jF, (startVideoJob 0 "j1" ⟨true, none, .stageError "boom"⟩ ""
        ⟨[], 45, 200⟩ []).2.2 = .returned jF ∧
      jF.status = .failed ∧ jF.message = "boom" ∧
      "j1" ∉ (startVideoJob 0 "j1" ⟨true, none, .stageError "boom"⟩ ""
        ⟨[], 45, 200⟩ []).2.1 ∧
      lookupJob (startVideoJob 0 "j1" ⟨true, none, .stageError "boom"⟩ ""
        ⟨[], 45, 200⟩ []).1.jobs "j1" = some jF :=
  C3_failure_cleanup 0 "j1" "" "boom" ⟨true, none, .stageError "boom"⟩
    ⟨[], 45, 200⟩ [] (by decide) rfl (Or.inr (Or.inl ⟨rfl, rfl⟩))

/-- C10: a submission that passes the admission check and the registry's
capacity check receives the normal acceptance response even when a
pipeline stage fails synchronously: the endpoint answers with the job's
id, status already failed and the stage's message — not an error
response. -/
theorem C10_accepted_failure_response (now maxConcurrent : Nat)
    (newId durMsg failMsg : String) (env : PipelineEnv) (s : JobStore)
    (fs : FS) (hadm : runningCount s < maxConcurrent)
    (hcap : (pruneExpired now s).1.jobs.length < s.maxJobs)
    (henv : env.ensureTempOk = true)
    (hcopy : env.copyError = none)
    (hproc : env.processOutcome = .stageError failMsg) :
    (videoUpscale now maxConcurrent newId env durMsg s fs).2.2 =
      .response newId .failed failMsg := by
  rcases startVideoJob_guarded_failure now newId durMsg failMsg env s fs
    hcap henv (Or.inr (Or.inl ⟨hcopy, hproc⟩)) with
    ⟨jF, hfs, hres, hst, hmsg, hid, hlook⟩
  unfold videoUpscale
  rw [if_neg (by omega)]
  have heq : startVideoJob now newId env durMsg s fs =
      ((startVideoJob now newId env durMsg s fs).1,
        (startVideoJob now newId env durMsg s fs).2.1, .returned jF) := by
    rw [← hres]
  rw [heq]
  simp [hid, hst, hmsg]

/-- C10 witness: a concrete stage failure on an accepted submission still
yields the acceptance JSON, with status failed and the stage message. -/
theorem C10_witness :
    (videoUpscale 0 1 "j2" ⟨true, none, .stageError "stage failed"⟩ ""
        ⟨[], 45, 200⟩ []).2.2 = .response "j2" .failed "stage failed" :=
  C10_accepted_failure_response 0 1 "j2" "" "stage failed"
    ⟨true, none, .stageError "stage failed"⟩ ⟨[], 45, 200⟩ []
    (by decide) (by decide) rfl rfl rfl

/-! ## Faithfulness of the step relation: the orchestrator's and daemon's
registry mutations factor through ProgStep -/

lemma outputPathOf_ne_empty (id : String) : outputPathOf id ≠ "" := by
  unfold outputPathOf
  intro h
  have hlen := congrArg String.length h
  simp [String.length_append] at hlen
  exact absurd hlen.2 (by decide)

lemma failAndCleanup_fst (now : Nat) (id msg : String) (s : JobStore)
    (fs : FS) :
    (failAndCleanup now id msg s fs).1 = (update now id .failed msg none s).1 := by
  unfold failAndCleanup
  rcases h : update now id .failed msg none s with ⟨s1, r⟩
  cases r <;> rfl

/-- One daemon cycle moves the registry by a single program step. -/
lemma cleanupCycle_step (now : Nat) (nowSecs : Int) (ttlMinutes : Nat)
    (s : JobStore) (fs : FS) (entries : List DirEntry) :
    ProgStep s (cleanupCycle now nowSecs ttlMinutes s fs entries).1 :=
  ProgStep.pruneStep now s

/-- Every run of the orchestrator, whatever its environment, moves the
registry along ProgStep transitions only: the step relation of the C7 and
C8 invariants covers the orchestrator's whole control flow, with the
status preconditions of its constructors realised by the actual sequence
create, update-to-running, terminal update. -/
lemma startVideoJob_reaches (now : Nat) (newId durMsg : String)
    (env : PipelineEnv) (s : JobStore) (fs : FS)
    (hfresh : lookupJob s.jobs newId = none) :
    Relation.ReflTransGen ProgStep s
      (startVideoJob now newId env durMsg s fs).1 := by
  have hstep1 : ProgStep s (create now newId "video" "queued" s).1 :=
    ProgStep.createStep now newId "video" "queued" s hfresh
  by_cases hcap : (pruneExpired now s).1.jobs.length ≥ s.maxJobs
  · have hsvj : (startVideoJob now newId env durMsg s fs).1 =
        (create now newId "video" "queued" s).1 := by
      unfold startVideoJob
      rw [create_at_capacity hcap]
    rw [hsvj]
    exact Relation.ReflTransGen.single hstep1
  · have hcap2 : (pruneExpired now s).1.jobs.length < s.maxJobs := by omega
    have hcr := @create_under_capacity now newId "video" "queued" s hcap2
    have hsnd : (create now newId "video" "queued" s).2 =
        .ok (newJob now newId "video" "queued" s.defaultTtl) := by
      rw [hcr]
    have hcr2 : create now newId "video" "queued" s =
        ((create now newId "video" "queued" s).1,
          .ok (newJob now newId "video" "queued" s.defaultTtl)) := by
      rw [← hsnd]
    have hlq : lookupJob (create now newId "video" "queued" s).1.jobs newId =
        some (newJob now newId "video" "queued" s.defaultTtl) := by
      rw [create_under_capacity_jobs hcap2, lookupJob_dictInsert, if_pos rfl]
    cases henv : env.ensureTempOk with
    | false =>
      have hsvj : (startVideoJob now newId env durMsg s fs).1 =
          (create now newId "video" "queued" s).1 := by
        unfold startVideoJob
        rw [hcr2]
        simp [henv]
      rw [hsvj]
      exact Relation.ReflTransGen.single hstep1
    | true =>
      cases hcopy : env.copyError with
      | some failMsg =>
        have hsvj := @startVideoJob_copy_fail now newId durMsg failMsg env s
          _ _ fs hcr2 henv hcopy
        have hstep2 : ProgStep (create now newId "video" "queued" s).1
            (update now newId .failed failMsg none
              (create now newId "video" "queued" s).1).1 :=
          ProgStep.failStep now newId failMsg _ _ hlq (Or.inl rfl)
        rw [hsvj, failAndCleanup_fst]
        exact Relation.ReflTransGen.head hstep1
          (Relation.ReflTransGen.single hstep2)
      | none =>
        have hupd := @update_found now newId Status.running "processing" none
          (create now newId "video" "queued" s).1 _ hlq
        rw [create_fst_ttl] at hupd
        have husnd : (update now newId .running "processing" none
            (create now newId "video" "queued" s).1).2 =
            .ok (applyUpdate now s.defaultTtl .running "processing" none
              (newJob now newId "video" "queued" s.defaultTtl)) := by
          rw [hupd]
        have hupd2 : update now newId .running "processing" none
            (create now newId "video" "queued" s).1 =
            ((update now newId .running "processing" none
              (create now newId "video" "queued" s).1).1,
              .ok (applyUpdate now s.defaultTtl .running "processing" none
                (newJob now newId "video" "queued" s.defaultTtl))) := by
          rw [← husnd]
        have hjobs2 : (update now newId .running "processing" none
            (create now newId "video" "queued" s).1).1.jobs =
            dictInsert (create now newId "video" "queued" s).1.jobs newId
              (applyUpdate now s.defaultTtl .running "processing" none
                (newJob now newId "video" "queued" s.defaultTtl)) := by
          rw [hupd]
        have hlr : lookupJob (update now newId .running "processing" none
            (create now newId "video" "queued" s).1).1.jobs newId =
            some (applyUpdate now s.defaultTtl .running "processing" none
              (newJob now newId "video" "queued" s.defaultTtl)) := by
          rw [hjobs2, lookupJob_dictInsert, if_pos rfl]
        have hstep2 : ProgStep (create now newId "video" "queued" s).1
            (update now newId .running "processing" none
              (create now newId "video" "queued" s).1).1 :=
          ProgStep.runStep now newId _ _ hlq rfl
        have hrunstatus : (applyUpdate now s.defaultTtl .running "processing"
            none (newJob now newId "video" "queued" s.defaultTtl)).status =
            .running :=
          applyUpdate_status now s.defaultTtl .running "processing" none _
        cases hproc : env.processOutcome with
        | stageError failMsg =>
          have hsvj := @startVideoJob_proc_fail now newId durMsg failMsg env s
            _ _ _ _ fs hcr2 henv hcopy hupd2 (Or.inl hproc)
          have hstep3 : ProgStep
              (update now newId .running "processing" none
                (create now newId "video" "queued" s).1).1
              (update now newId .failed failMsg none
                (update now newId .running "processing" none
                  (create now newId "video" "queued" s).1).1).1 :=
            ProgStep.failStep now newId failMsg _ _ hlr (Or.inr hrunstatus)
          rw [hsvj, failAndCleanup_fst]
          exact Relation.ReflTransGen.head hstep1
            (Relation.ReflTransGen.head hstep2
              (Relation.ReflTransGen.single hstep3))
        | unexpected failMsg =>
          have hsvj := @startVideoJob_proc_fail now newId durMsg failMsg env s
            _ _ _ _ fs hcr2 henv hcopy hupd2 (Or.inr hproc)
          have hstep3 : ProgStep
              (update now newId .running "processing" none
                (create now newId "video" "queued" s).1).1
              (update now newId .failed failMsg none
                (update now newId .running "processing" none
                  (create now newId "video" "queued" s).1).1).1 :=
            ProgStep.failStep now newId failMsg _ _ hlr (Or.inr hrunstatus)
          rw [hsvj, failAndCleanup_fst]
          exact Relation.ReflTransGen.head hstep1
            (Relation.ReflTransGen.head hstep2
              (Relation.ReflTransGen.single hstep3))
        | ok =>
          have hupd3 := @update_found now newId Status.completed durMsg
            (some (outputPathOf newId))
            (update now newId .running "processing" none
              (create now newId "video" "queued" s).1).1 _ hlr
          have hsvj := @startVideoJob_success now newId durMsg env s
            _ _ _ _ _ _ fs hcr2 henv hcopy hupd2 hproc hupd3
          have hstep3 : ProgStep
              (update now newId .running "processing" none
                (create now newId "video" "queued" s).1).1
              (update now newId .completed durMsg (some (outputPathOf newId))
                (update now newId .running "processing" none
                  (create now newId "video" "queued" s).1).1).1 :=
            ProgStep.completeStep now newId durMsg (outputPathOf newId) _ _
              hlr hrunstatus (outputPathOf_ne_empty newId)
          have h1 : (startVideoJob now newId env durMsg s fs).1 =
              (update now newId .completed durMsg (some (outputPathOf newId))
                (update now newId .running "processing" none
                  (create now newId "video" "queued" s).1).1).1 := by
            rw [hsvj, hupd3]
          rw [h1]
          exact Relation.ReflTransGen.head hstep1
            (Relation.ReflTransGen.head hstep2
              (Relation.ReflTransGen.single hstep3))

end LucidFrame
